import Mathlib

/-!
Verification of the AsyncSource primitive (async-source repository).

The definitions below are a shallow embedding of the latest AsyncSource
implementation (the variant with per-argument cache sub-entries and the
"default" sentinel sub-key).  JavaScript values are modelled by the `Json`
inductive, JS truthiness by `jsTruthy`, and `JSON.stringify` by
`jsonStringify`.  The mutable instance fields of the class form `SState`;
the pluggable storage backend is `Storage`; observable side effects
(producer calls, success/error handler calls, console warnings, storage
operations) are collected in `Effects`.
-/

/-- JavaScript values, as far as the library manipulates them: object and
array values nest; numbers are modelled as integers (no float behaviour is
relied on by the code under verification). -/
inductive Json where
  | obj (pairs : List (String × Json)) : Json
  | arr (items : List Json) : Json
  | str (text : String) : Json
  | num (value : Int) : Json
  | bool (flag : Bool) : Json
  | null : Json
deriving Repr

/-- JS ToBoolean on modelled values: null, false, 0 and "" are falsy. -/
def jsTruthy : Json → Bool
  | .null => false
  | .bool b => b
  | .num n => n != 0
  | .str s => s != ""
  | .arr _ => true
  | .obj _ => true

/-- JSON string escaping for quote and backslash characters. -/
def escapeChar (c : Char) : List Char :=
  if c = '"' then ['\\', '"'] else if c = '\\' then ['\\', '\\'] else [c]

mutual

/-- Characters of the JSON serialization of a value (models JSON.stringify). -/
def jsonChars : Json → List Char
  | .null => "null".data
  | .bool flag => (if flag then "true" else "false").data
  | .num value => (toString value).data
  | .str s => '"' :: (s.data.flatMap escapeChar ++ ['"'])
  | .arr elems => '[' :: (jsonListChars elems ++ [']'])
  | .obj fields => '\x7b' :: (jsonFieldsChars fields ++ ['\x7d'])

/-- Comma-separated serialization of array elements. -/
def jsonListChars : List Json → List Char
  | [] => []
  | [x] => jsonChars x
  | x :: y :: xs => jsonChars x ++ (',' :: jsonListChars (y :: xs))

/-- Comma-separated serialization of object fields. -/
def jsonFieldsChars : List (String × Json) → List Char
  | [] => []
  | [(k, v)] => ('"' :: (k.data.flatMap escapeChar ++ ['"', ':'])) ++ jsonChars v
  | (k, v) :: f :: fs =>
      ('"' :: (k.data.flatMap escapeChar ++ ['"', ':'])) ++ jsonChars v
        ++ (',' :: jsonFieldsChars (f :: fs))

end

/-- JSON.stringify as a String-valued function. -/
def jsonStringify (j : Json) : String := ⟨jsonChars j⟩

/-- Sentinel sub-key used for calls made with no arguments
(`const DEFAULT_ENTRY_KEY = 'default'`). -/
def DEFAULT_ENTRY_KEY : String := "default"

/-- Sub-key inside a stored record for a given argument vector:
`isRequestParamsExist ? JSON.stringify(args) : DEFAULT_ENTRY_KEY`. -/
def argKey (args : List Json) : String :=
  if args.isEmpty then DEFAULT_ENTRY_KEY else jsonStringify (Json.arr args)

/-- One cache sub-entry: `{ data, timestamp }`. -/
structure CacheEntry where
  data : Json
  timestamp : Int
deriving Repr

/-- A stored record: a map from sub-keys to entries (`cacheMap`). -/
def CacheMap : Type := String → Option CacheEntry

/-- The empty record (`JSON.parse` of nothing / `{}`). -/
def emptyCacheMap : CacheMap := fun _ => none

/-- `cacheMap[argKey] = newEntry` as a functional update. -/
def mapAssign (k : String) (e : CacheEntry) (m : CacheMap) : CacheMap :=
  fun k2 => if k2 = k then some e else m k2

/-- What the backend holds for one composite key: nothing (null/undefined/""),
an unparsable string, or a parsable record. -/
inductive StorageCell where
  | missing : StorageCell
  | malformed : StorageCell
  | record (m : CacheMap) : StorageCell

/-- The pluggable storage backend.  The three `*Fails` flags model a backend
whose getItem/setItem/removeItem call rejects. -/
structure Storage where
  cells : String → StorageCell
  getFails : Bool
  setFails : Bool
  removeFails : Bool

/-- Structured console.warn messages, each tagged with the computed cache key
exactly as the source's template literals are. -/
inductive Warn where
  | cacheGet (key : String) : Warn
  | cacheSet (key : String) : Warn
  | cacheRemove (key : String) : Warn
  | cacheInvalidate (key : String) : Warn
deriving Repr, DecidableEq

/-- Operations issued to the storage backend. -/
inductive StorageOp where
  | getItem (key : String) : StorageOp
  | setItem (key : String) (record : CacheMap) : StorageOp
  | removeItem (key : String) : StorageOp

/-- Observable side effects of a run: producer invocations (with their
argument vectors), successHandler calls, onError calls, warnings, and
storage operations, each in issue order. -/
structure Effects where
  producerCalls : List (List Json)
  successCalls : List Json
  errorCalls : List Json
  warnings : List Warn
  storageOps : List StorageOp

/-- The empty effect trace. -/
def noEffects : Effects := ⟨[], [], [], [], []⟩

/-- The mutable instance fields of an AsyncSource:
`responseData` (null modelled as `Json.null`), `isRequestPending`,
`isFetchedData`, `lastRequestId`, and the computed `cacheKey`. -/
structure SState where
  responseData : Json
  isRequestPending : Bool
  isFetchedData : Bool
  lastRequestId : Nat
  cacheKey : Option String
deriving Repr

/-- Field values at construction time. -/
def initialState : SState :=
  { responseData := .null
    isRequestPending := false
    isFetchedData := false
    lastRequestId := 0
    cacheKey := none }

/-- Per-instance configuration captured by the constructor.  Dynamic
(function-valued) cache keys are not modelled; `cachePrefixStr` is the
static `cachePrefix`. -/
structure Config where
  debounceTime : Int
  isCacheEnabled : Bool
  requestCacheKey : Option String
  cacheTime : Int
  isUpdateCache : Bool
  cachePrefixStr : String

/-- `createRequestId`: allocates `requestId = lastRequestId + 1`, stores it,
and returns the delay behaviour — `none` when the promise resolves with no
delay (`isFirstRequest || isImmediate`), `some debounceTime` when it is a
`setTimeout` of `debounceTime` milliseconds. -/
def createRequestId (cfg : Config) (s : SState) (isImmediate : Bool) :
    SState × Nat × Option Int :=
  let isFirstRequest := s.lastRequestId == 0
  let requestId := s.lastRequestId + 1
  let s1 := { s with lastRequestId := requestId }
  if isFirstRequest || isImmediate then (s1, requestId, none)
  else (s1, requestId, some cfg.debounceTime)

/-- `isLastRequest(requestId)`. -/
def isLastRequest (s : SState) (requestId : Nat) : Bool :=
  requestId == s.lastRequestId

/-- `updateCacheKey`: the composite key is the static prefix, a dash, and
the instance's string cache key (empty when absent). -/
def updateCacheKey (cfg : Config) : String :=
  cfg.cachePrefixStr ++ "-" ++ cfg.requestCacheKey.getD ""

/-- `getCachedData(args)`: awaits getItem; a missing/empty record is a miss;
a parse failure or backend rejection is caught, warned with the key, and is
a miss; a present sub-entry is returned unless expired.  The result `Json`
is `Json.null` on a miss.  Also returns the warnings and storage operations
produced. -/
def getCachedData (store : Storage) (cacheKey : Option String)
    (args : List Json) (now : Int) (cacheTime : Int) :
    Json × List Warn × List StorageOp :=
  match cacheKey with
  | none => (.null, [], [])
  | some key =>
    if store.getFails then (.null, [.cacheGet key], [.getItem key])
    else
      match store.cells key with
      | .missing => (.null, [], [.getItem key])
      | .malformed => (.null, [.cacheGet key], [.getItem key])
      | .record m =>
        match m (argKey args) with
        | none => (.null, [], [.getItem key])
        | some entry =>
          if now - entry.timestamp > cacheTime then (.null, [], [.getItem key])
          else (entry.data, [], [.getItem key])

/-- `setCachedData(data, args)`: inside one try block, reads the existing
record, parses it (missing parses to `{}`), assigns the new
`{data, timestamp}` entry under the argument sub-key and writes the merged
record back; any failure is caught and warned. -/
def setCachedData (store : Storage) (cacheKey : Option String)
    (args : List Json) (data : Json) (now : Int) :
    Storage × List Warn × List StorageOp :=
  match cacheKey with
  | none => (store, [], [])
  | some key =>
    if store.getFails then (store, [.cacheSet key], [.getItem key])
    else
      match store.cells key with
      | .malformed => (store, [.cacheSet key], [.getItem key])
      | .missing =>
        let m1 := mapAssign (argKey args) ⟨data, now⟩ emptyCacheMap
        if store.setFails then
          (store, [.cacheSet key], [.getItem key, .setItem key m1])
        else
          ({ store with cells := fun k => if k = key then .record m1 else store.cells k },
           [], [.getItem key, .setItem key m1])
      | .record m =>
        let m1 := mapAssign (argKey args) ⟨data, now⟩ m
        if store.setFails then
          (store, [.cacheSet key], [.getItem key, .setItem key m1])
        else
          ({ store with cells := fun k => if k = key then .record m1 else store.cells k },
           [], [.getItem key, .setItem key m1])

/-- `removeCachedData()`: no-op without a computed cache key; otherwise
issues removeItem, catching and warning on rejection. -/
def removeCachedData (store : Storage) (cacheKey : Option String) :
    Storage × List Warn × List StorageOp :=
  match cacheKey with
  | none => (store, [], [])
  | some key =>
    if store.removeFails then (store, [.cacheRemove key], [.removeItem key])
    else
      ({ store with cells := fun k => if k = key then .missing else store.cells k },
       [], [.removeItem key])

/-- `syncCache(args)`: computes the cache key, reads the cached entry and,
when the cached value is truthy, installs it
(`responseData`, `isFetchedData := true`, `isRequestPending := false`). -/
def syncCache (cfg : Config) (s : SState) (store : Storage)
    (args : List Json) (now : Int) : SState × List Warn × List StorageOp :=
  let key := updateCacheKey cfg
  let s1 := { s with cacheKey := some key }
  let r := getCachedData store s1.cacheKey args now cfg.cacheTime
  let s2 :=
    if jsTruthy r.1 then
      { s1 with responseData := r.1, isFetchedData := true, isRequestPending := false }
    else s1
  (s2, r.2.1, r.2.2)

/-- `clear()`: resets the four mutable fields to their initial values
(`cacheKey` is not reset) and best-effort evicts the cached record. -/
def clear (s : SState) (store : Storage) :
    SState × Storage × List Warn × List StorageOp :=
  let s1 : SState :=
    { responseData := .null
      isRequestPending := false
      isFetchedData := false
      lastRequestId := 0
      cacheKey := s.cacheKey }
  let r := removeCachedData store s.cacheKey
  (s1, r.1, r.2.1, r.2.2)

/-- Result of one sequential run of a public method: final state, final
backend contents, effect trace, and the exception escaping the method if
any (`none` = the returned promise resolves). -/
structure RunResult where
  state : SState
  store : Storage
  eff : Effects
  uncaught : Option Json

/-- The try/catch around the producer call in `request`, from the point
where `serviceMethod(...args)` is invoked.  `producer` is the settled
outcome of that call; `handlerThrows` is `some e` when the configured
successHandler throws `e` whenever invoked; `sc0`, `ws0`, `ops0` are the
effects accumulated before the call.  On success while still current the
state is updated, the successHandler runs (a throw lands in the catch
block, which re-checks current-ness), and the cache is written through;
failures while current set `responseData` to null and call onError once;
stale outcomes of either kind change nothing. -/
def producerPhase (cfg : Config) (s : SState) (store : Storage) (rid : Nat)
    (args : List Json) (hasHandler : Bool) (handlerThrows : Option Json)
    (producer : Except Json Json) (now : Int)
    (sc0 : List Json) (ws0 : List Warn) (ops0 : List StorageOp) : RunResult :=
  match producer with
  | .ok response =>
    if isLastRequest s rid then
      let sA := { s with isRequestPending := false, isFetchedData := true,
                         responseData := response }
      if hasHandler && handlerThrows.isSome then
        let e := handlerThrows.getD .null
        if isLastRequest sA rid then
          ⟨{ sA with isRequestPending := false, isFetchedData := true,
                     responseData := .null },
           store, ⟨[args], sc0 ++ [response], [e], ws0, ops0⟩, none⟩
        else ⟨sA, store, ⟨[args], sc0 ++ [response], [], ws0, ops0⟩, none⟩
      else
        let scs := if hasHandler then sc0 ++ [response] else sc0
        if cfg.isCacheEnabled then
          let w := setCachedData store sA.cacheKey args response now
          ⟨sA, w.1, ⟨[args], scs, [], ws0 ++ w.2.1, ops0 ++ w.2.2⟩, none⟩
        else ⟨sA, store, ⟨[args], scs, [], ws0, ops0⟩, none⟩
    else ⟨s, store, ⟨[args], sc0, [], ws0, ops0⟩, none⟩
  | .error e =>
    if isLastRequest s rid then
      ⟨{ s with isRequestPending := false, isFetchedData := true,
                responseData := .null },
       store, ⟨[args], sc0, [e], ws0, ops0⟩, none⟩
    else ⟨s, store, ⟨[args], sc0, [], ws0, ops0⟩, none⟩

/-- `request(args, successHandler?, isImmediate?)`, run sequentially (no
interleaved call on the same instance): set pending, allocate the request
id, bail out when stale, consult the cache when enabled (a truthy hit
installs the value, marks fetched, calls the handler — whose throw escapes
the method here — and ends the call when `isUpdateCache` is false), then
run the producer phase. -/
def request (cfg : Config) (s0 : SState) (store0 : Storage) (args : List Json)
    (hasHandler : Bool) (handlerThrows : Option Json)
    (producer : Except Json Json) (now : Int) (isImmediate : Bool) : RunResult :=
  let s1 := { s0 with isRequestPending := true }
  let alloc := createRequestId cfg s1 isImmediate
  let s2 := alloc.1
  let rid := alloc.2.1
  if !(isLastRequest s2 rid) then ⟨s2, store0, noEffects, none⟩
  else if cfg.isCacheEnabled then
    let sc := syncCache cfg s2 store0 args now
    let s3 := sc.1
    let ws1 := sc.2.1
    let ops1 := sc.2.2
    if jsTruthy s3.responseData && !s3.isRequestPending then
      let s4 := { s3 with isFetchedData := true }
      if hasHandler && handlerThrows.isSome then
        ⟨s4, store0, ⟨[], [s4.responseData], [], ws1, ops1⟩, handlerThrows⟩
      else
        let scs := if hasHandler then [s4.responseData] else []
        if !cfg.isUpdateCache then
          ⟨s4, store0, ⟨[], scs, [], ws1, ops1⟩, none⟩
        else producerPhase cfg s4 store0 rid args hasHandler handlerThrows producer now scs ws1 ops1
    else producerPhase cfg s3 store0 rid args hasHandler handlerThrows producer now [] ws1 ops1
  else producerPhase cfg s2 store0 rid args hasHandler handlerThrows producer now [] [] []

/-- `update(...args)`. -/
def update (cfg : Config) (s : SState) (store : Storage) (args : List Json)
    (producer : Except Json Json) (now : Int) : RunResult :=
  request cfg s store args false none producer now false

/-- `updateIfEmpty(...args)`: returns at once when `data` is truthy. -/
def updateIfEmpty (cfg : Config) (s : SState) (store : Storage)
    (args : List Json) (producer : Except Json Json) (now : Int) : RunResult :=
  if jsTruthy s.responseData then ⟨s, store, noEffects, none⟩
  else request cfg s store args false none producer now false

/-- `updateImmediate(...args)`. -/
def updateImmediate (cfg : Config) (s : SState) (store : Storage)
    (args : List Json) (producer : Except Json Json) (now : Int) : RunResult :=
  request cfg s store args false none producer now true

/-- `push(successHandler, ...args)`. -/
def push (cfg : Config) (s : SState) (store : Storage)
    (handlerThrows : Option Json) (args : List Json)
    (producer : Except Json Json) (now : Int) : RunResult :=
  request cfg s store args true handlerThrows producer now false

/-- `updateOnce(...args)`: polls every 100ms while loading, then runs
`updateIfEmpty`.  In the sequential model the pending state cannot change
during the poll, so the recursion is fuelled; `none` models a call that is
still polling. -/
def updateOnce (fuel : Nat) (cfg : Config) (s : SState) (store : Storage)
    (args : List Json) (producer : Except Json Json) (now : Int) :
    Option RunResult :=
  match fuel with
  | 0 => none
  | fuel + 1 =>
    if s.isRequestPending then updateOnce fuel cfg s store args producer now
    else some (updateIfEmpty cfg s store args producer now)

/-!  Interleaving model for the sequencer.

A run of `request` crosses suspension points (the debounce wait, the cache
read, the producer call).  The atomic segments between them are the events
below; an arbitrary interleaving of any number of update/push/
updateImmediate calls on one instance is a list of events.  `clear` is not
among the events: the claims about request sequencing quantify over
update/push/updateImmediate invocations only. -/
inductive Ev where
  | invoke (isImmediate : Bool) : Ev
  | resume (rid : Nat) : Ev
  | cacheResolve (rid : Nat) (key : String) (cd : Json) : Ev
  | hitMark : Ev
  | settleOk (rid : Nat) (response : Json) (handlerThrew : Bool) : Ev
  | settleErr (rid : Nat) (e : Json) : Ev

/-- Effect of one atomic segment on the instance state.
`invoke`: the synchronous prefix of `request` (pending := true, id
allocation).  `resume`: the post-debounce current-ness check (no state
change either way).  `cacheResolve`: `syncCache` finishing with cached
value `cd`.  `hitMark`: the `isFetchedData := true` of the cache-hit
branch.  `settleOk`/`settleErr`: the try/catch settlement of the producer
call of the attempt with id `rid` (with `handlerThrew` covering a
successHandler that throws into the catch block). -/
def step (cfg : Config) (s : SState) : Ev → SState
  | .invoke isImmediate =>
      (createRequestId cfg { s with isRequestPending := true } isImmediate).1
  | .resume _ => s
  | .cacheResolve _ key cd =>
      let s1 := { s with cacheKey := some key }
      if jsTruthy cd then
        { s1 with responseData := cd, isFetchedData := true, isRequestPending := false }
      else s1
  | .hitMark =>
      if jsTruthy s.responseData && !s.isRequestPending then
        { s with isFetchedData := true }
      else s
  | .settleOk rid response handlerThrew =>
      if isLastRequest s rid then
        if handlerThrew then
          { s with isRequestPending := false, isFetchedData := true, responseData := .null }
        else
          { s with isRequestPending := false, isFetchedData := true, responseData := response }
      else s
  | .settleErr rid _ =>
      if isLastRequest s rid then
        { s with isRequestPending := false, isFetchedData := true, responseData := .null }
      else s

/-- Run a whole interleaving. -/
def exec (cfg : Config) (s : SState) (tr : List Ev) : SState :=
  tr.foldl (step cfg) s


/-- A sample configuration: the constructor defaults
(debounce 100, cache disabled, default ttl and prefix). -/
def cfg0 : Config :=
  { debounceTime := 100
    isCacheEnabled := false
    requestCacheKey := none
    cacheTime := 43200000
    isUpdateCache := true
    cachePrefixStr := "AsyncSource" }

theorem step_settleOk_stale (cfg : Config) (s : SState) (rid : Nat)
    (resp : Json) (hThrew : Bool) (hne : rid ≠ s.lastRequestId) :
    step cfg s (.settleOk rid resp hThrew) = s := by
  simp [step, isLastRequest, hne]

theorem step_settleErr_stale (cfg : Config) (s : SState) (rid : Nat)
    (e : Json) (hne : rid ≠ s.lastRequestId) :
    step cfg s (.settleErr rid e) = s := by
  simp [step, isLastRequest, hne]

theorem lastRequestId_step_mono (cfg : Config) (s : SState) (e : Ev) :
    s.lastRequestId ≤ (step cfg s e).lastRequestId := by
  cases e with
  | invoke isImmediate =>
      simp only [step, createRequestId]
      split <;> simp
  | resume rid => simp [step]
  | cacheResolve rid key cd =>
      simp only [step]
      split <;> simp
  | hitMark =>
      simp only [step]
      split <;> simp
  | settleOk rid resp hThrew =>
      simp only [step]
      split
      · split <;> simp
      · simp
  | settleErr rid e =>
      simp only [step]
      split <;> simp

theorem lastRequestId_exec_mono (cfg : Config) (s : SState) (tr : List Ev) :
    s.lastRequestId ≤ (exec cfg s tr).lastRequestId := by
  induction tr generalizing s with
  | nil => simp [exec]
  | cons e tr ih =>
      calc s.lastRequestId ≤ (step cfg s e).lastRequestId :=
              lastRequestId_step_mono cfg s e
        _ ≤ (exec cfg (step cfg s e) tr).lastRequestId := ih _
        _ = (exec cfg s (e :: tr)).lastRequestId := by simp [exec]

theorem exec_append_singleton (cfg : Config) (s : SState) (tr : List Ev)
    (e : Ev) : exec cfg s (tr ++ [e]) = step cfg (exec cfg s tr) e := by
  simp [exec, List.foldl_append]

/-- C1 — Latest-wins sequencing: in any interleaving of
update/push/updateImmediate attempts on one Source, the producer-settlement
step of an attempt (success or failure, with or without a throwing success
handler) mutates the state only if the attempt's request id still equals
`lastRequestId` at that moment; and an attempt that has been superseded
(its id is below the instance's `lastRequestId`) leaves the state — in
particular `responseData`, `isRequestPending`, `isFetchedData` — untouched
at its settlement, however many further events happen before it settles. -/
theorem settle_mutates_only_if_current :
    (∀ (cfg : Config) (s : SState) (rid : Nat) (resp e : Json) (hThrew : Bool),
        rid ≠ s.lastRequestId →
          step cfg s (.settleOk rid resp hThrew) = s
          ∧ step cfg s (.settleErr rid e) = s)
    ∧ (∀ (cfg : Config) (s : SState) (tr : List Ev) (rid : Nat) (resp e : Json)
        (hThrew : Bool),
        rid < s.lastRequestId →
          exec cfg s (tr ++ [.settleOk rid resp hThrew]) = exec cfg s tr
          ∧ exec cfg s (tr ++ [.settleErr rid e]) = exec cfg s tr) := by
  constructor
  · intro cfg s rid resp e hThrew hne
    exact ⟨step_settleOk_stale cfg s rid resp hThrew hne,
           step_settleErr_stale cfg s rid e hne⟩
  · intro cfg s tr rid resp e hThrew hlt
    have hm : s.lastRequestId ≤ (exec cfg s tr).lastRequestId :=
      lastRequestId_exec_mono cfg s tr
    have hne : rid ≠ (exec cfg s tr).lastRequestId := by omega
    constructor
    · rw [exec_append_singleton]
      exact step_settleOk_stale cfg _ rid resp hThrew hne
    · rw [exec_append_singleton]
      exact step_settleErr_stale cfg _ rid e hne

theorem settle_mutates_only_if_current_w :
    step cfg0 { initialState with lastRequestId := 2 } (.settleOk 1 (.num 7) false)
      = { initialState with lastRequestId := 2 }
    ∧ exec cfg0 { initialState with lastRequestId := 2 }
        ([.invoke false] ++ [.settleErr 1 .null])
      = exec cfg0 { initialState with lastRequestId := 2 } [.invoke false] :=
  ⟨(settle_mutates_only_if_current.1 cfg0 { initialState with lastRequestId := 2 }
      1 (.num 7) .null false (by decide)).1,
   (settle_mutates_only_if_current.2 cfg0 { initialState with lastRequestId := 2 }
      [.invoke false] 1 (.num 7) .null false (by decide)).2⟩

/-- A backend holding nothing, with no failure injected. -/
def emptyStorage : Storage :=
  { cells := fun _ => .missing, getFails := false, setFails := false, removeFails := false }

theorem createRequestId_fst (cfg : Config) (s : SState) (isImmediate : Bool) :
    (createRequestId cfg s isImmediate).1
      = { s with lastRequestId := s.lastRequestId + 1 } := by
  simp only [createRequestId]
  split <;> rfl

theorem createRequestId_rid (cfg : Config) (s : SState) (isImmediate : Bool) :
    (createRequestId cfg s isImmediate).2.1 = s.lastRequestId + 1 := by
  simp only [createRequestId]
  split <;> rfl

theorem syncCache_lastRequestId (cfg : Config) (s : SState) (store : Storage)
    (args : List Json) (now : Int) :
    (syncCache cfg s store args now).1.lastRequestId = s.lastRequestId := by
  simp only [syncCache]
  split <;> rfl

theorem producerPhase_uncaught_none (cfg : Config) (s : SState)
    (store : Storage) (rid : Nat) (args : List Json) (hasHandler : Bool)
    (handlerThrows : Option Json) (producer : Except Json Json) (now : Int)
    (sc0 : List Json) (ws0 : List Warn) (ops0 : List StorageOp) :
    (producerPhase cfg s store rid args hasHandler handlerThrows producer now
      sc0 ws0 ops0).uncaught = none := by
  cases producer with
  | ok v =>
      simp only [producerPhase]
      split
      · split
        · split <;> rfl
        · split <;> rfl
      · rfl
  | error e =>
      simp only [producerPhase]
      split <;> rfl

theorem producerPhase_error (cfg : Config) (s : SState) (store : Storage)
    (rid : Nat) (args : List Json) (hasHandler : Bool)
    (handlerThrows : Option Json) (e : Json) (now : Int)
    (sc0 : List Json) (ws0 : List Warn) (ops0 : List StorageOp)
    (hcur : isLastRequest s rid = true) :
    producerPhase cfg s store rid args hasHandler handlerThrows (.error e) now
      sc0 ws0 ops0
      = ⟨{ s with isRequestPending := false, isFetchedData := true,
                  responseData := .null },
         store, ⟨[args], sc0, [e], ws0, ops0⟩, none⟩ := by
  simp only [producerPhase, hcur, if_true]

theorem request_cacheDisabled (cfg : Config) (s : SState) (store : Storage)
    (args : List Json) (hasHandler : Bool) (handlerThrows : Option Json)
    (producer : Except Json Json) (now : Int) (isImmediate : Bool)
    (hc : cfg.isCacheEnabled = false) :
    request cfg s store args hasHandler handlerThrows producer now isImmediate
      = producerPhase cfg
          { s with isRequestPending := true, lastRequestId := s.lastRequestId + 1 }
          store (s.lastRequestId + 1) args hasHandler handlerThrows producer now
          [] [] [] := by
  simp only [request, createRequestId_fst, createRequestId_rid, isLastRequest, hc]
  simp

theorem request_uncaught_none (cfg : Config) (s : SState) (store : Storage)
    (args : List Json) (hasHandler : Bool) (producer : Except Json Json)
    (now : Int) (isImmediate : Bool) :
    (request cfg s store args hasHandler none producer now isImmediate).uncaught
      = none := by
  simp only [request]
  split
  · rfl
  · split
    · split
      · split
        · rfl
        · split
          · rfl
          · apply producerPhase_uncaught_none
      · apply producerPhase_uncaught_none
    · apply producerPhase_uncaught_none

theorem updateIfEmpty_uncaught_none (cfg : Config) (s : SState)
    (store : Storage) (args : List Json) (producer : Except Json Json)
    (now : Int) :
    (updateIfEmpty cfg s store args producer now).uncaught = none := by
  simp only [updateIfEmpty]
  split
  · rfl
  · apply request_uncaught_none

theorem updateOnce_uncaught_none (fuel : Nat) (cfg : Config) (s : SState)
    (store : Storage) (args : List Json) (producer : Except Json Json)
    (now : Int) (r : RunResult)
    (h : updateOnce fuel cfg s store args producer now = some r) :
    r.uncaught = none := by
  induction fuel with
  | zero => simp [updateOnce] at h
  | succ n ih =>
      simp only [updateOnce] at h
      split at h
      · exact ih h
      · have hr : updateIfEmpty cfg s store args producer now = r :=
          Option.some_injective _ h
        rw [← hr]
        apply updateIfEmpty_uncaught_none

theorem request_error_facts (cfg : Config) (s : SState) (store : Storage)
    (args : List Json) (hasHandler : Bool) (e : Json) (now : Int)
    (isImmediate : Bool)
    (hcall : (request cfg s store args hasHandler none (.error e) now
                isImmediate).eff.producerCalls ≠ []) :
    (request cfg s store args hasHandler none (.error e) now
        isImmediate).state.isRequestPending = false
    ∧ (request cfg s store args hasHandler none (.error e) now
        isImmediate).state.isFetchedData = true
    ∧ (request cfg s store args hasHandler none (.error e) now
        isImmediate).state.responseData = .null
    ∧ (request cfg s store args hasHandler none (.error e) now
        isImmediate).eff.errorCalls = [e] := by
  revert hcall
  simp only [request]
  split
  · intro hcall
    exact absurd rfl hcall
  · split
    · split
      · split
        · intro hcall
          exact absurd rfl hcall
        · split
          · intro hcall
            exact absurd rfl hcall
          · intro hcall
            rw [producerPhase_error]
            · exact ⟨rfl, rfl, rfl, rfl⟩
            · simp [isLastRequest, syncCache_lastRequestId, createRequestId_fst,
                    createRequestId_rid]
      · intro hcall
        rw [producerPhase_error]
        · exact ⟨rfl, rfl, rfl, rfl⟩
        · simp [isLastRequest, syncCache_lastRequestId, createRequestId_fst,
                createRequestId_rid]
    · intro hcall
      rw [producerPhase_error]
      · exact ⟨rfl, rfl, rfl, rfl⟩
      · simp [isLastRequest, createRequestId_fst, createRequestId_rid]

/-- C2 — Producer failure handling: whenever the producer rejects with `e`
and the attempt is still current (in a sequential run the producer is
reached exactly when `producerCalls` is nonempty), the Source ends with
`isRequestPending = false`, `isFetchedData = true`, `responseData = null`,
and the configured onError handler is invoked exactly once with `e`; and
the rejection never escapes a public method — `request` (hence `update`,
`updateIfEmpty`, `updateImmediate`, `push`, `updateOnce`) resolves
normally. -/
theorem producer_failure_handling :
    ∀ (cfg : Config) (s : SState) (store : Storage) (args : List Json)
      (hasHandler : Bool) (e : Json) (now : Int) (isImmediate : Bool)
      (fuel : Nat) (r : RunResult),
      ((request cfg s store args hasHandler none (.error e) now
          isImmediate).eff.producerCalls ≠ [] →
        (request cfg s store args hasHandler none (.error e) now
            isImmediate).state.isRequestPending = false
        ∧ (request cfg s store args hasHandler none (.error e) now
            isImmediate).state.isFetchedData = true
        ∧ (request cfg s store args hasHandler none (.error e) now
            isImmediate).state.responseData = .null
        ∧ (request cfg s store args hasHandler none (.error e) now
            isImmediate).eff.errorCalls = [e])
      ∧ (request cfg s store args hasHandler none (.error e) now
          isImmediate).uncaught = none
      ∧ (update cfg s store args (.error e) now).uncaught = none
      ∧ (updateIfEmpty cfg s store args (.error e) now).uncaught = none
      ∧ (updateImmediate cfg s store args (.error e) now).uncaught = none
      ∧ (push cfg s store none args (.error e) now).uncaught = none
      ∧ (updateOnce fuel cfg s store args (.error e) now = some r →
          r.uncaught = none) := by
  intro cfg s store args hasHandler e now isImmediate fuel r
  exact ⟨request_error_facts cfg s store args hasHandler e now isImmediate,
         request_uncaught_none cfg s store args hasHandler (.error e) now isImmediate,
         request_uncaught_none cfg s store args false (.error e) now false,
         updateIfEmpty_uncaught_none cfg s store args (.error e) now,
         request_uncaught_none cfg s store args false (.error e) now true,
         request_uncaught_none cfg s store args true (.error e) now false,
         fun h => updateOnce_uncaught_none fuel cfg s store args (.error e) now r h⟩

theorem producer_failure_handling_w :
    (request cfg0 initialState emptyStorage [] false none
        (.error (.str "boom")) 0 false).state.responseData = Json.null
    ∧ (request cfg0 initialState emptyStorage [] false none
        (.error (.str "boom")) 0 false).eff.errorCalls = [Json.str "boom"]
    ∧ (request cfg0 initialState emptyStorage [] false none
        (.error (.str "boom")) 0 false).uncaught = none
    ∧ (updateIfEmpty cfg0 initialState emptyStorage []
        (.error (.str "boom")) 0).uncaught = none := by
  have T := producer_failure_handling cfg0 initialState emptyStorage [] false
    (.str "boom") 0 false 1
    (updateIfEmpty cfg0 initialState emptyStorage [] (.error (.str "boom")) 0)
  have hcall : (request cfg0 initialState emptyStorage [] false none
      (.error (.str "boom")) 0 false).eff.producerCalls ≠ [] :=
    List.cons_ne_nil _ _
  exact ⟨(T.1 hcall).2.2.1, (T.1 hcall).2.2.2, T.2.1, T.2.2.2.2.2.2 rfl⟩

/-- Top-level calls on one Source, reduced to what matters for request-id
allocation: a request-making call (update/push, or updateImmediate when
the flag is set) and a `clear()` call. -/
inductive CallEv where
  | call (isImmediate : Bool) : CallEv
  | clearCall : CallEv

/-- Runs a call sequence from a fresh Source and records, for every
request-making call in order, whether its `createRequestId` promise
resolved with no delay (`true`) or suspended for the debounce window
(`false`).  Each call advances the state exactly as `request` and `clear`
do. -/
def noDelayFlags (cfg : Config) (calls : List CallEv) : List Bool :=
  (calls.foldl
    (fun acc c =>
      match c with
      | .call isImmediate =>
          let r := createRequestId cfg { acc.1 with isRequestPending := true }
            isImmediate
          (r.1, acc.2 ++ [r.2.2.isNone])
      | .clearCall => ((clear acc.1 emptyStorage).1, acc.2))
    (initialState, [])).2

/-- The claim's wording, as a predicate on the same call sequences: a call
resolves with no delay exactly when it is the very first request-making
call ever issued on the instance, or its immediate flag is set. -/
def firstEverNoDelayFlags (calls : List CallEv) : List Bool :=
  (calls.foldl
    (fun (acc : Bool × List Bool) c =>
      match c with
      | .call isImmediate => (false, acc.2 ++ [acc.1 || isImmediate])
      | .clearCall => acc)
    (true, [])).2

/-- C3 counterexample: in the sequence update(); clear(); update(), the
third call is neither the very first invocation ever nor immediate, yet
`createRequestId` resolves it with no delay — `clear()` resets
`lastRequestId` to 0, and the code only tests `!this.lastRequestId`.  The
claim's reading predicts the delay flags [true, false]; the code produces
[true, true]. -/
theorem createRequestId_first_ever_cx :
    noDelayFlags cfg0 [.call false, .clearCall, .call false] = [true, true]
    ∧ firstEverNoDelayFlags [.call false, .clearCall, .call false]
        = [true, false]
    ∧ noDelayFlags cfg0 [.call false, .clearCall, .call false]
        ≠ firstEverNoDelayFlags [.call false, .clearCall, .call false] := by
  refine ⟨rfl, rfl, ?_⟩
  decide

/-- C3 amended: every invocation allocates its request id by incrementing
`lastRequestId`, and the id resolves with no delay exactly when no request
id is currently allocated (`lastRequestId = 0`: the very first invocation,
or the first one after `clear()`) or the immediate flag is set; otherwise
the attempt suspends for `debounceTime` milliseconds — in particular
`updateImmediate` (immediate = true) never waits out the debounce
window. -/
theorem createRequestId_alloc_and_delay :
    ∀ (cfg : Config) (s : SState) (isImmediate : Bool),
      (createRequestId cfg s isImmediate).2.1 = s.lastRequestId + 1
      ∧ (createRequestId cfg s isImmediate).1.lastRequestId
          = s.lastRequestId + 1
      ∧ ((createRequestId cfg s isImmediate).2.2 = none
          ↔ (s.lastRequestId = 0 ∨ isImmediate = true))
      ∧ (s.lastRequestId ≠ 0 → isImmediate = false →
          (createRequestId cfg s isImmediate).2.2 = some cfg.debounceTime)
      ∧ (createRequestId cfg s true).2.2 = none := by
  intro cfg s isImmediate
  refine ⟨createRequestId_rid cfg s isImmediate, ?_, ?_, ?_, ?_⟩
  · rw [createRequestId_fst]
  · constructor
    · intro h
      by_contra hcon
      push_neg at hcon
      have h1 : (s.lastRequestId == 0 || isImmediate) = false := by
        simp [hcon.1, hcon.2]
      simp [createRequestId, h1] at h
    · intro h
      have h1 : (s.lastRequestId == 0 || isImmediate) = true := by
        rcases h with h | h <;> simp [h]
      simp [createRequestId, h1]
  · intro h1 h2
    have h3 : (s.lastRequestId == 0 || isImmediate) = false := by
      simp [h1, h2]
    simp [createRequestId, h3]
  · have h1 : (s.lastRequestId == 0 || true) = true := by simp
    simp [createRequestId, h1]

theorem createRequestId_alloc_and_delay_w :
    (createRequestId cfg0 { initialState with lastRequestId := 2 } false).2.2
      = some cfg0.debounceTime :=
  (createRequestId_alloc_and_delay cfg0
    { initialState with lastRequestId := 2 } false).2.2.2.1
    (by decide) (by decide)

theorem jsonStringify_arr_ne_default (xs : List Json) :
    jsonStringify (Json.arr xs) ≠ DEFAULT_ENTRY_KEY := by
  intro h
  have h2 : ('[' :: (jsonListChars xs ++ [']']))
      = ('d' :: ['e', 'f', 'a', 'u', 'l', 't']) :=
    congrArg String.data h
  injection h2 with h3 _
  exact absurd h3 (by decide)

/-- C7 — Zero-argument sentinel sub-key: a call with arguments uses the
JSON serialization of its argument array as cache sub-key, a call with no
arguments uses the fixed sentinel "default", and the two never collide —
a serialized nonempty argument array always starts with a bracket, so it
never equals the sentinel. -/
theorem argKey_sentinel :
    argKey [] = DEFAULT_ENTRY_KEY
    ∧ ∀ (args : List Json), args ≠ [] →
        argKey args = jsonStringify (Json.arr args)
        ∧ argKey args ≠ DEFAULT_ENTRY_KEY := by
  constructor
  · rfl
  · intro args h
    have hne : args.isEmpty = false := by
      cases args with
      | nil => exact absurd rfl h
      | cons a l => rfl
    constructor
    · simp [argKey, hne]
    · simp only [argKey, hne, Bool.false_eq_true, if_false]
      exact jsonStringify_arr_ne_default args

theorem argKey_sentinel_w :
    argKey [Json.num 1] = jsonStringify (Json.arr [Json.num 1])
    ∧ argKey [Json.num 1] ≠ DEFAULT_ENTRY_KEY :=
  argKey_sentinel.2 [Json.num 1] (List.cons_ne_nil _ _)

theorem setCachedData_record (store : Storage) (key : String) (m : CacheMap)
    (args : List Json) (d : Json) (now : Int)
    (hg : store.getFails = false) (hs : store.setFails = false)
    (hc : store.cells key = .record m) :
    (setCachedData store (some key) args d now).1
      = { store with
          cells := fun k =>
            if k = key then .record (mapAssign (argKey args) ⟨d, now⟩ m)
            else store.cells k } := by
  simp only [setCachedData, hg, Bool.false_eq_true, if_false]
  rw [hc]
  simp [hs]

/-- C6 — Cache write merges sibling sub-entries: writing a result for
argument vector `a1` replaces only the entry under `a1`'s sub-key and
keeps every other sub-key of the stored record; two writes under distinct
sub-keys leave both entries in the one stored record. -/
theorem setCachedData_merges_siblings :
    ∀ (store : Storage) (key : String) (m : CacheMap) (a1 a2 : List Json)
      (d1 d2 : Json) (t1 t2 : Int),
      store.getFails = false → store.setFails = false →
      store.cells key = .record m →
      ((setCachedData store (some key) a1 d1 t1).1.cells key
          = .record (mapAssign (argKey a1) ⟨d1, t1⟩ m)
        ∧ mapAssign (argKey a1) ⟨d1, t1⟩ m (argKey a1) = some ⟨d1, t1⟩
        ∧ ∀ k, k ≠ argKey a1 → mapAssign (argKey a1) ⟨d1, t1⟩ m k = m k)
      ∧ (argKey a1 ≠ argKey a2 →
          ∃ m2 : CacheMap,
            (setCachedData (setCachedData store (some key) a1 d1 t1).1
                (some key) a2 d2 t2).1.cells key = .record m2
            ∧ m2 (argKey a1) = some ⟨d1, t1⟩
            ∧ m2 (argKey a2) = some ⟨d2, t2⟩) := by
  intro store key m a1 a2 d1 d2 t1 t2 hg hs hc
  have h1 := setCachedData_record store key m a1 d1 t1 hg hs hc
  constructor
  · refine ⟨?_, ?_, ?_⟩
    · rw [h1]
      simp
    · simp [mapAssign]
    · intro k hk
      simp [mapAssign, hk]
  · intro hne
    have hg1 : (setCachedData store (some key) a1 d1 t1).1.getFails = false := by
      rw [h1]
      exact hg
    have hs1 : (setCachedData store (some key) a1 d1 t1).1.setFails = false := by
      rw [h1]
      exact hs
    have hc1 : (setCachedData store (some key) a1 d1 t1).1.cells key
        = .record (mapAssign (argKey a1) ⟨d1, t1⟩ m) := by
      rw [h1]
      simp
    have h2 := setCachedData_record (setCachedData store (some key) a1 d1 t1).1
      key (mapAssign (argKey a1) ⟨d1, t1⟩ m) a2 d2 t2 hg1 hs1 hc1
    refine ⟨mapAssign (argKey a2) ⟨d2, t2⟩ (mapAssign (argKey a1) ⟨d1, t1⟩ m),
            ?_, ?_, ?_⟩
    · rw [h2]
      simp
    · simp [mapAssign, hne, Ne.symm hne]
    · simp [mapAssign]

theorem setCachedData_merges_siblings_w :
    ∃ m2 : CacheMap,
      (setCachedData
          (setCachedData
            { cells := fun k =>
                if k = "AsyncSource-users" then .record emptyCacheMap
                else .missing
              getFails := false, setFails := false, removeFails := false }
            (some "AsyncSource-users") [Json.num 1] (Json.str "a") 10).1
          (some "AsyncSource-users") [Json.num 2] (Json.str "b") 20).1.cells
        "AsyncSource-users" = .record m2
      ∧ m2 (argKey [Json.num 1]) = some ⟨Json.str "a", 10⟩
      ∧ m2 (argKey [Json.num 2]) = some ⟨Json.str "b", 20⟩ :=
  (setCachedData_merges_siblings
    { cells := fun k =>
        if k = "AsyncSource-users" then .record emptyCacheMap else .missing
      getFails := false, setFails := false, removeFails := false }
    "AsyncSource-users" emptyCacheMap [Json.num 1] [Json.num 2]
    (Json.str "a") (Json.str "b") 10 20 rfl rfl (by simp)).2 (by decide)

theorem syncCache_hit (cfg : Config) (s : SState) (store : Storage)
    (args : List Json) (now : Int)
    (hcd : jsTruthy (getCachedData store (some (updateCacheKey cfg)) args now
        cfg.cacheTime).1 = true) :
    syncCache cfg s store args now
      = ({ s with
            cacheKey := some (updateCacheKey cfg)
            responseData := (getCachedData store (some (updateCacheKey cfg))
              args now cfg.cacheTime).1
            isFetchedData := true
            isRequestPending := false },
         (getCachedData store (some (updateCacheKey cfg)) args now
            cfg.cacheTime).2.1,
         (getCachedData store (some (updateCacheKey cfg)) args now
            cfg.cacheTime).2.2) := by
  simp only [syncCache]
  simp [hcd]

theorem producerPhase_successCalls_extends (cfg : Config) (s : SState)
    (store : Storage) (rid : Nat) (args : List Json) (hasHandler : Bool)
    (handlerThrows : Option Json) (producer : Except Json Json) (now : Int)
    (sc0 : List Json) (ws0 : List Warn) (ops0 : List StorageOp) :
    ∃ t, (producerPhase cfg s store rid args hasHandler handlerThrows producer
        now sc0 ws0 ops0).eff.successCalls = sc0 ++ t := by
  cases producer with
  | ok v =>
      simp only [producerPhase]
      split
      · split
        · split
          · exact ⟨[v], rfl⟩
          · exact ⟨[v], rfl⟩
        · split
          · split
            · exact ⟨[v], rfl⟩
            · exact ⟨[], by simp⟩
          · split
            · exact ⟨[v], rfl⟩
            · exact ⟨[], by simp⟩
      · exact ⟨[], by simp⟩
  | error e =>
      simp only [producerPhase]
      split
      · exact ⟨[], by simp⟩
      · exact ⟨[], by simp⟩

theorem producerPhase_successCalls_head (cfg : Config) (s : SState)
    (store : Storage) (rid : Nat) (args : List Json) (hasHandler : Bool)
    (handlerThrows : Option Json) (producer : Except Json Json) (now : Int)
    (c : Json) (ws0 : List Warn) (ops0 : List StorageOp) :
    (producerPhase cfg s store rid args hasHandler handlerThrows producer now
        [c] ws0 ops0).eff.successCalls.head? = some c := by
  rcases producerPhase_successCalls_extends cfg s store rid args hasHandler
    handlerThrows producer now [c] ws0 ops0 with ⟨t, h⟩
  rw [h]
  rfl


/-- A cache-enabled configuration with refresh-on-hit disabled, used by the
cache-behaviour counterexamples. -/
def cfgHit : Config :=
  { debounceTime := 100
    isCacheEnabled := true
    requestCacheKey := some "k"
    cacheTime := 1000
    isUpdateCache := false
    cachePrefixStr := "AsyncSource" }

/-- A backend whose record for the composite key holds the falsy value 0
under the zero-argument sub-key, stored at timestamp 5. -/
def storeZero : Storage :=
  { cells := fun k =>
      if k = "AsyncSource-k" then
        .record (fun sk => if sk = "default" then some ⟨Json.num 0, 5⟩ else none)
      else .missing
    getFails := false
    setFails := false
    removeFails := false }

/-- C4 counterexample: the Cache Manager returns the non-expired stored
value 0, yet — because the code tests JS truthiness, not non-nullness —
the Source does not install it, does not call onSuccess with it, and calls
the producer even though `isUpdateCache = false`; the live result lands in
`responseData` instead. -/
theorem cache_hit_falsy_cx :
    (getCachedData storeZero (some (updateCacheKey cfgHit)) [] 5
        cfgHit.cacheTime).1 = Json.num 0
    ∧ cfgHit.isUpdateCache = false
    ∧ (request cfgHit initialState storeZero [] true none (.ok (.num 9)) 5
        false).eff.producerCalls = [[]]
    ∧ (request cfgHit initialState storeZero [] true none (.ok (.num 9)) 5
        false).eff.successCalls = [Json.num 9]
    ∧ (request cfgHit initialState storeZero [] true none (.ok (.num 9)) 5
        false).state.responseData = Json.num 9 :=
  ⟨rfl, rfl, rfl, rfl, rfl⟩

/-- C4 amended: when the cache is enabled and the Cache Manager returns a
non-expired stored value that is moreover truthy, the Source installs it in
`responseData`, sets `isFetchedData = true` and `isRequestPending = false`,
and the first successHandler call delivers exactly that cached value; when
`isUpdateCache = false` the call ends there, with no producer invocation.
(A falsy stored value — 0, "", false, null — is treated as a miss.) -/
theorem cache_hit_truthy_behavior :
    ∀ (cfg : Config) (s : SState) (store : Storage) (args : List Json)
      (hasHandler : Bool) (producer : Except Json Json) (now : Int)
      (isImmediate : Bool),
      cfg.isCacheEnabled = true →
      jsTruthy (getCachedData store (some (updateCacheKey cfg)) args now
          cfg.cacheTime).1 = true →
      (hasHandler = true →
        (request cfg s store args hasHandler none producer now
            isImmediate).eff.successCalls.head?
          = some (getCachedData store (some (updateCacheKey cfg)) args now
              cfg.cacheTime).1)
      ∧ (cfg.isUpdateCache = false →
          (request cfg s store args hasHandler none producer now
              isImmediate).state.responseData
            = (getCachedData store (some (updateCacheKey cfg)) args now
                cfg.cacheTime).1
          ∧ (request cfg s store args hasHandler none producer now
              isImmediate).state.isFetchedData = true
          ∧ (request cfg s store args hasHandler none producer now
              isImmediate).state.isRequestPending = false
          ∧ (request cfg s store args hasHandler none producer now
              isImmediate).eff.producerCalls = []
          ∧ (request cfg s store args hasHandler none producer now
              isImmediate).eff.successCalls
            = (if hasHandler then
                [(getCachedData store (some (updateCacheKey cfg)) args now
                    cfg.cacheTime).1]
               else [])
          ∧ (request cfg s store args hasHandler none producer now
              isImmediate).uncaught = none) := by
  intro cfg s store args hasHandler producer now isImmediate hcache hcd
  simp only [request, hcache, createRequestId_fst, createRequestId_rid,
    isLastRequest, syncCache_hit cfg _ store args now hcd]
  simp only [beq_self_eq_true, Bool.not_true, Bool.false_eq_true, if_false,
    if_true]
  simp only [hcd, Bool.not_false, Bool.and_self, if_true, Option.isSome_none,
    Bool.and_false, Bool.false_eq_true, if_false]
  constructor
  · intro hh
    subst hh
    split
    · rfl
    · exact producerPhase_successCalls_head _ _ _ _ _ _ _ _ _ _ _ _
  · intro hup
    simp [hup]

/-- A backend whose record for the composite key holds the truthy value 7
under the zero-argument sub-key, stored at timestamp 5. -/
def storeSeven : Storage :=
  { cells := fun k =>
      if k = "AsyncSource-k" then
        .record (fun sk => if sk = "default" then some ⟨Json.num 7, 5⟩ else none)
      else .missing
    getFails := false
    setFails := false
    removeFails := false }

theorem cache_hit_truthy_behavior_w :
    (request cfgHit initialState storeSeven [] true none (.ok (.num 9)) 5
        false).state.responseData = Json.num 7
    ∧ (request cfgHit initialState storeSeven [] true none (.ok (.num 9)) 5
        false).eff.producerCalls = []
    ∧ (request cfgHit initialState storeSeven [] true none (.ok (.num 9)) 5
        false).eff.successCalls.head? = some (Json.num 7) := by
  have T := cache_hit_truthy_behavior cfgHit initialState storeSeven [] true
    (.ok (.num 9)) 5 false rfl rfl
  exact ⟨((T.2 rfl).1).trans rfl, (T.2 rfl).2.2.2.1, (T.1 rfl).trans rfl⟩

theorem getCachedData_getFails (store : Storage) (key : String)
    (args : List Json) (now cacheTime : Int) (h : store.getFails = true) :
    getCachedData store (some key) args now cacheTime
      = (.null, [.cacheGet key], [.getItem key]) := by
  simp [getCachedData, h]

theorem getCachedData_malformed (store : Storage) (key : String)
    (args : List Json) (now cacheTime : Int) (hg : store.getFails = false)
    (hm : store.cells key = .malformed) :
    getCachedData store (some key) args now cacheTime
      = (.null, [.cacheGet key], [.getItem key]) := by
  simp [getCachedData, hg, hm]

theorem getCachedData_missing (store : Storage) (key : String)
    (args : List Json) (now cacheTime : Int) (hg : store.getFails = false)
    (hm : store.cells key = .missing) :
    getCachedData store (some key) args now cacheTime
      = (.null, [], [.getItem key]) := by
  simp [getCachedData, hg, hm]

theorem setCachedData_getFails (store : Storage) (key : String)
    (args : List Json) (d : Json) (now : Int) (h : store.getFails = true) :
    setCachedData store (some key) args d now
      = (store, [.cacheSet key], [.getItem key]) := by
  simp [setCachedData, h]

theorem setCachedData_missing_setFails (store : Storage) (key : String)
    (args : List Json) (d : Json) (now : Int) (hg : store.getFails = false)
    (hm : store.cells key = .missing) (hs : store.setFails = true) :
    setCachedData store (some key) args d now
      = (store, [.cacheSet key],
         [.getItem key,
          .setItem key (mapAssign (argKey args) ⟨d, now⟩ emptyCacheMap)]) := by
  simp only [setCachedData, hg, Bool.false_eq_true, if_false]
  rw [hm]
  simp [hs]

theorem syncCache_miss (cfg : Config) (s : SState) (store : Storage)
    (args : List Json) (now : Int)
    (hcd : jsTruthy (getCachedData store (some (updateCacheKey cfg)) args now
        cfg.cacheTime).1 = false) :
    syncCache cfg s store args now
      = ({ s with cacheKey := some (updateCacheKey cfg) },
         (getCachedData store (some (updateCacheKey cfg)) args now
            cfg.cacheTime).2.1,
         (getCachedData store (some (updateCacheKey cfg)) args now
            cfg.cacheTime).2.2) := by
  simp only [syncCache]
  simp [hcd]

theorem producerPhase_ok_cacheEnabled (cfg : Config) (s : SState)
    (store : Storage) (rid : Nat) (args : List Json) (hasHandler : Bool)
    (v : Json) (now : Int) (sc0 : List Json) (ws0 : List Warn)
    (ops0 : List StorageOp) (hcur : isLastRequest s rid = true)
    (hce : cfg.isCacheEnabled = true) :
    producerPhase cfg s store rid args hasHandler none (.ok v) now sc0 ws0 ops0
      = ⟨{ s with isRequestPending := false, isFetchedData := true,
                  responseData := v },
         (setCachedData store s.cacheKey args v now).1,
         ⟨[args], (if hasHandler then sc0 ++ [v] else sc0), [],
          ws0 ++ (setCachedData store s.cacheKey args v now).2.1,
          ops0 ++ (setCachedData store s.cacheKey args v now).2.2⟩, none⟩ := by
  simp [producerPhase, hcur, hce]

theorem producerPhase_ok_cacheDisabled (cfg : Config) (s : SState)
    (store : Storage) (rid : Nat) (args : List Json) (hasHandler : Bool)
    (v : Json) (now : Int) (sc0 : List Json) (ws0 : List Warn)
    (ops0 : List StorageOp) (hcur : isLastRequest s rid = true)
    (hce : cfg.isCacheEnabled = false) :
    producerPhase cfg s store rid args hasHandler none (.ok v) now sc0 ws0 ops0
      = ⟨{ s with isRequestPending := false, isFetchedData := true,
                  responseData := v },
         store,
         ⟨[args], (if hasHandler then sc0 ++ [v] else sc0), [], ws0, ops0⟩,
         none⟩ := by
  simp [producerPhase, hcur, hce]

theorem request_cacheEnabled_miss (cfg : Config) (s : SState)
    (store : Storage) (args : List Json) (hasHandler : Bool) (v : Json)
    (now : Int) (isImmediate : Bool) (hce : cfg.isCacheEnabled = true)
    (hcd : jsTruthy (getCachedData store (some (updateCacheKey cfg)) args now
        cfg.cacheTime).1 = false) :
    request cfg s store args hasHandler none (.ok v) now isImmediate
      = ⟨{ responseData := v
           isRequestPending := false
           isFetchedData := true
           lastRequestId := s.lastRequestId + 1
           cacheKey := some (updateCacheKey cfg) },
         (setCachedData store (some (updateCacheKey cfg)) args v now).1,
         ⟨[args], (if hasHandler then [v] else []), [],
          (getCachedData store (some (updateCacheKey cfg)) args now
            cfg.cacheTime).2.1
            ++ (setCachedData store (some (updateCacheKey cfg)) args v now).2.1,
          (getCachedData store (some (updateCacheKey cfg)) args now
            cfg.cacheTime).2.2
            ++ (setCachedData store (some (updateCacheKey cfg)) args v now).2.2⟩,
         none⟩ := by
  simp only [request, hce, createRequestId_fst, createRequestId_rid,
    isLastRequest, syncCache_miss cfg _ store args now hcd]
  simp only [beq_self_eq_true, Bool.not_true, Bool.and_false,
    Bool.false_eq_true, if_false, if_true]
  rw [producerPhase_ok_cacheEnabled cfg _ store _ args hasHandler v now [] _ _
    (by simp [isLastRequest]) hce]
  simp

/-- C5 — Cache failure degrades to a miss: a backend rejection on read, or
an unparsable stored record, is caught, logged as a warning tagged with the
computed key, and read as a miss (null); the live producer path still runs
and its result lands normally; a failing write similarly only warns; a
failing removeItem leaves `clear()` complete; no cache failure is passed
to onError and none escapes a public method. -/
theorem cache_failure_degrades_to_miss :
    ∀ (cfg : Config) (s : SState) (store : Storage) (key : String)
      (args : List Json) (v : Json) (now cacheTime : Int)
      (hasHandler isImmediate : Bool),
      (store.getFails = true →
        (getCachedData store (some key) args now cacheTime).1 = .null
        ∧ (getCachedData store (some key) args now cacheTime).2.1
            = [.cacheGet key])
      ∧ (store.getFails = false → store.cells key = .malformed →
        (getCachedData store (some key) args now cacheTime).1 = .null
        ∧ (getCachedData store (some key) args now cacheTime).2.1
            = [.cacheGet key])
      ∧ (cfg.isCacheEnabled = true → store.getFails = true →
          (request cfg s store args hasHandler none (.ok v) now
              isImmediate).eff.producerCalls = [args]
          ∧ (request cfg s store args hasHandler none (.ok v) now
              isImmediate).state.responseData = v
          ∧ (request cfg s store args hasHandler none (.ok v) now
              isImmediate).state.isRequestPending = false
          ∧ (request cfg s store args hasHandler none (.ok v) now
              isImmediate).state.isFetchedData = true
          ∧ (request cfg s store args hasHandler none (.ok v) now
              isImmediate).eff.errorCalls = []
          ∧ (request cfg s store args hasHandler none (.ok v) now
              isImmediate).eff.warnings
            = [.cacheGet (updateCacheKey cfg), .cacheSet (updateCacheKey cfg)]
          ∧ (request cfg s store args hasHandler none (.ok v) now
              isImmediate).uncaught = none)
      ∧ (cfg.isCacheEnabled = true → store.getFails = false →
          store.setFails = true → store.cells (updateCacheKey cfg) = .missing →
          (request cfg s store args hasHandler none (.ok v) now
              isImmediate).eff.producerCalls = [args]
          ∧ (request cfg s store args hasHandler none (.ok v) now
              isImmediate).state.responseData = v
          ∧ (request cfg s store args hasHandler none (.ok v) now
              isImmediate).eff.errorCalls = []
          ∧ (request cfg s store args hasHandler none (.ok v) now
              isImmediate).eff.warnings = [.cacheSet (updateCacheKey cfg)]
          ∧ (request cfg s store args hasHandler none (.ok v) now
              isImmediate).uncaught = none)
      ∧ (store.removeFails = true →
          (clear { s with cacheKey := some key } store).2.2.1
            = [.cacheRemove key]
          ∧ (clear { s with cacheKey := some key } store).1.responseData
            = .null
          ∧ (clear { s with cacheKey := some key } store).1.isFetchedData
            = false) := by
  intro cfg s store key args v now cacheTime hasHandler isImmediate
  refine ⟨?_, ?_, ?_, ?_, ?_⟩
  · intro h
    rw [getCachedData_getFails store key args now cacheTime h]
    exact ⟨rfl, rfl⟩
  · intro hg hm
    rw [getCachedData_malformed store key args now cacheTime hg hm]
    exact ⟨rfl, rfl⟩
  · intro hce hg
    have hcd : jsTruthy (getCachedData store (some (updateCacheKey cfg)) args
        now cfg.cacheTime).1 = false := by
      rw [getCachedData_getFails store (updateCacheKey cfg) args now
        cfg.cacheTime hg]
      rfl
    rw [request_cacheEnabled_miss cfg s store args hasHandler v now isImmediate
      hce hcd]
    refine ⟨rfl, rfl, rfl, rfl, rfl, ?_, rfl⟩
    rw [getCachedData_getFails store (updateCacheKey cfg) args now cfg.cacheTime
        hg,
      setCachedData_getFails store (updateCacheKey cfg) args v now hg]
    rfl
  · intro hce hg hs hm
    have hcd : jsTruthy (getCachedData store (some (updateCacheKey cfg)) args
        now cfg.cacheTime).1 = false := by
      rw [getCachedData_missing store (updateCacheKey cfg) args now cfg.cacheTime
        hg hm]
      rfl
    rw [request_cacheEnabled_miss cfg s store args hasHandler v now isImmediate
      hce hcd]
    refine ⟨rfl, rfl, rfl, ?_, rfl⟩
    rw [getCachedData_missing store (updateCacheKey cfg) args now cfg.cacheTime
        hg hm,
      setCachedData_missing_setFails store (updateCacheKey cfg) args v now hg
        hm hs]
    rfl
  · intro hr
    refine ⟨?_, rfl, rfl⟩
    simp [clear, removeCachedData, hr]

/-- A backend every operation of which rejects. -/
def storeFail : Storage :=
  { cells := fun _ => .missing, getFails := true, setFails := true,
    removeFails := true }

theorem cache_failure_degrades_to_miss_w :
    (request cfgHit initialState storeFail [] false none (.ok (.num 3)) 0
        false).eff.producerCalls = [[]]
    ∧ (request cfgHit initialState storeFail [] false none (.ok (.num 3)) 0
        false).uncaught = none
    ∧ (clear { initialState with cacheKey := some "AsyncSource-k" }
        storeFail).2.2.1 = [.cacheRemove "AsyncSource-k"] := by
  have T := cache_failure_degrades_to_miss cfgHit initialState storeFail
    "AsyncSource-k" [] (.num 3) 0 0 false false
  exact ⟨(T.2.2.1 rfl rfl).1, (T.2.2.1 rfl rfl).2.2.2.2.2.2,
         (T.2.2.2.2 rfl).1⟩

theorem producerPhase_producerCalls (cfg : Config) (s : SState)
    (store : Storage) (rid : Nat) (args : List Json) (hasHandler : Bool)
    (handlerThrows : Option Json) (producer : Except Json Json) (now : Int)
    (sc0 : List Json) (ws0 : List Warn) (ops0 : List StorageOp) :
    (producerPhase cfg s store rid args hasHandler handlerThrows producer now
        sc0 ws0 ops0).eff.producerCalls = [args] := by
  cases producer with
  | ok v =>
      simp only [producerPhase]
      split
      · split
        · split <;> rfl
        · split <;> rfl
      · rfl
  | error e =>
      simp only [producerPhase]
      split <;> rfl

/-- C8 counterexample: a Source whose `responseData` is the non-null but
falsy value 0 — e.g. after a producer resolved 0 — is not treated as
non-empty: `updateIfEmpty` invokes the producer again, because the code
guards on `if (this.data)`, i.e. JS truthiness, not on non-nullness. -/
theorem updateIfEmpty_falsy_cx :
    ({ initialState with responseData := Json.num 0 } : SState).responseData
      ≠ Json.null
    ∧ (updateIfEmpty cfg0 { initialState with responseData := Json.num 0 }
        emptyStorage [] (.ok (.num 1)) 0).eff.producerCalls = [[]] := by
  constructor
  · intro h
    exact Json.noConfusion h
  · rfl

/-- C8 amended: `updateIfEmpty` is a no-op (no producer call, no state or
effect) exactly when `responseData` is truthy, and otherwise coincides with
`update`; in particular, after a successful `update` whose result is
truthy (cache disabled) it does not invoke the producer again, while
before any successful result (`responseData` still null) it does. -/
theorem updateIfEmpty_truthy_guard :
    ∀ (cfg : Config) (s : SState) (store : Storage) (args : List Json)
      (producer : Except Json Json) (now : Int),
      (jsTruthy s.responseData = true →
        updateIfEmpty cfg s store args producer now
          = ⟨s, store, noEffects, none⟩)
      ∧ (jsTruthy s.responseData = false →
        updateIfEmpty cfg s store args producer now
          = update cfg s store args producer now)
      ∧ (cfg.isCacheEnabled = false → ∀ v, jsTruthy v = true →
          (updateIfEmpty cfg (update cfg s store args (.ok v) now).state store
            args producer now).eff.producerCalls = [])
      ∧ (cfg.isCacheEnabled = false → s.responseData = .null →
          (updateIfEmpty cfg s store args producer now).eff.producerCalls
            = [args]) := by
  intro cfg s store args producer now
  refine ⟨?_, ?_, ?_, ?_⟩
  · intro h
    simp [updateIfEmpty, h]
  · intro h
    simp [updateIfEmpty, update, h]
  · intro hce v hv
    have hupd : (update cfg s store args (.ok v) now).state.responseData = v := by
      rw [update, request_cacheDisabled cfg s store args false none (.ok v) now
        false hce,
        producerPhase_ok_cacheDisabled cfg _ store _ args false v now [] [] []
          (by simp [isLastRequest]) hce]
    have ht : jsTruthy (update cfg s store args (.ok v) now).state.responseData
        = true := by
      rw [hupd]
      exact hv
    simp [updateIfEmpty, ht]
    rfl
  · intro hce h0
    have hf : jsTruthy s.responseData = false := by
      rw [h0]
      rfl
    rw [updateIfEmpty, if_neg (by simp [hf]),
      request_cacheDisabled cfg s store args false none producer now false hce]
    exact producerPhase_producerCalls cfg _ store _ args false none producer
      now [] [] []

theorem updateIfEmpty_truthy_guard_w :
    updateIfEmpty cfg0 { initialState with responseData := Json.num 5 }
        emptyStorage [] (.ok (.num 1)) 0
      = ⟨{ initialState with responseData := Json.num 5 }, emptyStorage,
         noEffects, none⟩
    ∧ (updateIfEmpty cfg0 initialState emptyStorage [] (.ok (.num 1))
        0).eff.producerCalls = [[]] := by
  refine ⟨(updateIfEmpty_truthy_guard cfg0
      { initialState with responseData := Json.num 5 } emptyStorage []
      (.ok (.num 1)) 0).1 (by decide), ?_⟩
  exact (updateIfEmpty_truthy_guard cfg0 initialState emptyStorage []
    (.ok (.num 1)) 0).2.2.2 rfl rfl

/-- C9 counterexample: on a Source that has not computed a cache key (no
cache-consulting request has run — e.g. a freshly constructed instance),
`clear()` issues no removeItem call at all, not exactly one: the code
guards `removeCachedData` with `if (!this.cacheKey) return`. -/
theorem clear_no_eviction_cx :
    (clear initialState emptyStorage).2.2.2 = []
    ∧ (clear initialState emptyStorage).2.2.2.length ≠ 1 := by
  exact ⟨rfl, by decide⟩

/-- C9 amended: after `clear()` the Source has `responseData = null`,
`isFetchedData = false`, `isRequestPending = false`, `lastRequestId` back
at its initial value 0, and the computed cache key is kept; exactly one
removeItem is issued for the instance's composite key when one has been
computed, and none otherwise; the producer binding is untouched, so a
subsequent `update` still invokes the producer. -/
theorem clear_postcondition :
    ∀ (s : SState) (store : Storage) (cfg : Config) (args : List Json)
      (producer : Except Json Json) (now : Int),
      (clear s store).1.responseData = .null
      ∧ (clear s store).1.isFetchedData = false
      ∧ (clear s store).1.isRequestPending = false
      ∧ (clear s store).1.lastRequestId = 0
      ∧ (clear s store).1.cacheKey = s.cacheKey
      ∧ (∀ k, s.cacheKey = some k →
          (clear s store).2.2.2 = [.removeItem k])
      ∧ (s.cacheKey = none → (clear s store).2.2.2 = [])
      ∧ (cfg.isCacheEnabled = false →
          (update cfg (clear s store).1 store args producer
            now).eff.producerCalls = [args]) := by
  intro s store cfg args producer now
  refine ⟨rfl, rfl, rfl, rfl, rfl, ?_, ?_, ?_⟩
  · intro k hk
    simp only [clear, removeCachedData, hk]
    split <;> rfl
  · intro hk
    simp [clear, removeCachedData, hk]
  · intro hce
    rw [update, request_cacheDisabled cfg _ store args false none producer now
      false hce]
    exact producerPhase_producerCalls cfg _ store _ args false none producer
      now [] [] []

theorem clear_postcondition_w :
    (clear { initialState with cacheKey := some "AsyncSource-k" }
        emptyStorage).2.2.2 = [.removeItem "AsyncSource-k"]
    ∧ (update cfg0
        (clear { initialState with cacheKey := some "AsyncSource-k" }
          emptyStorage).1 emptyStorage [] (.ok (.num 1))
        0).eff.producerCalls = [[]] := by
  have T := clear_postcondition
    { initialState with cacheKey := some "AsyncSource-k" } emptyStorage cfg0
    [] (.ok (.num 1)) 0
  exact ⟨T.2.2.2.2.2.1 "AsyncSource-k" rfl, T.2.2.2.2.2.2.2 rfl⟩

theorem producerPhase_ok_handlerThrows (cfg : Config) (s : SState)
    (store : Storage) (rid : Nat) (args : List Json) (v e : Json) (now : Int)
    (sc0 : List Json) (ws0 : List Warn) (ops0 : List StorageOp)
    (hcur : isLastRequest s rid = true) :
    producerPhase cfg s store rid args true (some e) (.ok v) now sc0 ws0 ops0
      = ⟨{ s with isRequestPending := false, isFetchedData := true,
                  responseData := .null },
         store, ⟨[args], sc0 ++ [v], [e], ws0, ops0⟩, none⟩ := by
  have h2 : (rid == s.lastRequestId) = true := hcur
  simp [producerPhase, isLastRequest, h2]

/-- C10 — the success handler runs inside the producer's try block: when a
push's producer resolves `v` but the configured success handler throws `e`,
the catch block re-checks current-ness and then discards the just-stored
result — the Source ends with `responseData = null`,
`isRequestPending = false`, `isFetchedData = true`, the handler having been
called once with `v`, onError called once with `e`, and nothing escaping
the method (shown here on the cache-disabled live path). -/
theorem success_handler_throw_discards_result :
    ∀ (cfg : Config) (s : SState) (store : Storage) (args : List Json)
      (v e : Json) (now : Int),
      cfg.isCacheEnabled = false →
      (push cfg s store (some e) args (.ok v) now).state.responseData = .null
      ∧ (push cfg s store (some e) args (.ok v)
          now).state.isRequestPending = false
      ∧ (push cfg s store (some e) args (.ok v)
          now).state.isFetchedData = true
      ∧ (push cfg s store (some e) args (.ok v) now).eff.successCalls = [v]
      ∧ (push cfg s store (some e) args (.ok v) now).eff.errorCalls = [e]
      ∧ (push cfg s store (some e) args (.ok v) now).uncaught = none := by
  intro cfg s store args v e now hce
  rw [push, request_cacheDisabled cfg s store args true (some e) (.ok v) now
    false hce,
    producerPhase_ok_handlerThrows cfg _ store _ args v e now [] [] []
      (by simp [isLastRequest])]
  exact ⟨rfl, rfl, rfl, rfl, rfl, rfl⟩

theorem success_handler_throw_discards_result_w :
    (push cfg0 initialState emptyStorage (some (.str "hfail")) []
        (.ok (.num 4)) 0).state.responseData = Json.null
    ∧ (push cfg0 initialState emptyStorage (some (.str "hfail")) []
        (.ok (.num 4)) 0).eff.successCalls = [Json.num 4]
    ∧ (push cfg0 initialState emptyStorage (some (.str "hfail")) []
        (.ok (.num 4)) 0).eff.errorCalls = [Json.str "hfail"] := by
  have T := success_handler_throw_discards_result cfg0 initialState
    emptyStorage [] (.num 4) (.str "hfail") 0 rfl
  exact ⟨T.1, T.2.2.2.1, T.2.2.2.2.1⟩
